import Mathlib

/-!
Shallow embedding of the django-eav2 EAV storage layer:
the swappable-model resolvers of eav/conf.py and eav/models/utils.py,
the module-level bindings of eav/settings.py, the Meta.swappable options of
the four concrete models, the EnumValue model (eav/models/enum_value.py),
and the Value/Entity operations described by the specification.
-/

/-- A Django model class, identified by its app label and its (lowercased)
model name, as registered in the Django app registry. -/
structure ModelRef where
  app_label : String
  model_name : String
deriving DecidableEq

/-- The collection of models installed in the Django app registry.
Model names are stored lowercased, as the Django registry does. -/
def AppRegistry : Type := List ModelRef

/-- Python exceptions that the resolver code can raise or catch. -/
inductive PyExn where
  | improperlyConfigured (msg : String)
  | valueError
  | lookupError
  | importError (name : String)
deriving DecidableEq

/-- The Django settings object, restricted to the four optional EAV model
settings read by this package; a `none` field means the setting is not
defined in the project settings. -/
structure DjangoSettings where
  EAV_ATTRIBUTE_MODEL : Option String
  EAV_VALUE_MODEL : Option String
  EAV_ENUM_GROUP_MODEL : Option String
  EAV_ENUM_VALUE_MODEL : Option String
deriving DecidableEq

/-- A settings object with none of the EAV model settings defined:
the default configuration. -/
def noSettings : DjangoSettings := ⟨none, none, none, none⟩

/-- The app registry containing the four concrete models the eav app
installs (eav/models/__init__.py): Attribute, Value, EnumGroup, EnumValue. -/
def defaultRegistry : AppRegistry :=
  [⟨"eav", "attribute"⟩, ⟨"eav", "value"⟩, ⟨"eav", "enumgroup"⟩, ⟨"eav", "enumvalue"⟩]

/-- Splitting a string on the dot character, as the Python split used by
apps.get_model does. -/
def splitOnDot (s : String) : List String :=
  (s.toList.splitOn '.').map List.asString

/-- Lowercasing a model name, as the Django registry lookup does. -/
def lowerName (s : String) : String :=
  (s.toList.map Char.toLower).asString

/-- Behaviour of django.apps.apps.get_model on a single dotted string with
require_ready=False: the string is split on the dot and must yield exactly
an app label and a model name (otherwise the tuple unpacking raises
ValueError); the model is then looked up in the registry, the model name
compared case-insensitively (otherwise LookupError). -/
def appsGetModel (registry : AppRegistry) (model_string : String) :
    Except PyExn ModelRef :=
  match splitOnDot model_string with
  | [app_label, model_name] =>
      match registry.find? (fun m =>
          m.app_label == app_label && m.model_name == lowerName model_name) with
      | some m => .ok m
      | none => .error .lookupError
  | _ => .error .valueError

/-- The model, if any, that `appsGetModel` would locate for a model string:
the string splits into exactly an app label and a model name, and a matching
model is installed in the registry. -/
def installedModel (registry : AppRegistry) (model_string : String) :
    Option ModelRef :=
  match splitOnDot model_string with
  | [app_label, model_name] =>
      registry.find? (fun m =>
          m.app_label == app_label && m.model_name == lowerName model_name)
  | _ => none

namespace Conf

/-- The shared try/except body of the four resolvers in eav/conf.py:
call apps.get_model on the model string, turning ValueError (malformed
string) and LookupError (model not installed) into ImproperlyConfigured
with the messages of the source; any other exception propagates. -/
def resolveModelString (registry : AppRegistry)
    (settingName model_string : String) : Except PyExn ModelRef :=
  match appsGetModel registry model_string with
  | .ok m => .ok m
  | .error .valueError =>
      .error (.improperlyConfigured
        (settingName ++ " must be of the form app_label.model_name, got "
          ++ model_string))
  | .error .lookupError =>
      .error (.improperlyConfigured
        (settingName ++ " refers to model " ++ model_string
          ++ " that has not been installed"))
  | .error e => .error e

/-- eav.conf.get_attribute_model: resolve getattr(settings,
EAV_ATTRIBUTE_MODEL, default eav.Attribute) through apps.get_model. -/
def get_attribute_model (registry : AppRegistry) (settings : DjangoSettings) :
    Except PyExn ModelRef :=
  resolveModelString registry "EAV_ATTRIBUTE_MODEL"
    (settings.EAV_ATTRIBUTE_MODEL.getD "eav.Attribute")

/-- eav.conf.get_value_model. -/
def get_value_model (registry : AppRegistry) (settings : DjangoSettings) :
    Except PyExn ModelRef :=
  resolveModelString registry "EAV_VALUE_MODEL"
    (settings.EAV_VALUE_MODEL.getD "eav.Value")

/-- eav.conf.get_enum_group_model. -/
def get_enum_group_model (registry : AppRegistry) (settings : DjangoSettings) :
    Except PyExn ModelRef :=
  resolveModelString registry "EAV_ENUM_GROUP_MODEL"
    (settings.EAV_ENUM_GROUP_MODEL.getD "eav.EnumGroup")

/-- eav.conf.get_enum_value_model. -/
def get_enum_value_model (registry : AppRegistry) (settings : DjangoSettings) :
    Except PyExn ModelRef :=
  resolveModelString registry "EAV_ENUM_VALUE_MODEL"
    (settings.EAV_ENUM_VALUE_MODEL.getD "eav.EnumValue")

/-- eav.conf.get_attribute_model_string: the configured setting when
present, else the default label. -/
def get_attribute_model_string (settings : DjangoSettings) : String :=
  settings.EAV_ATTRIBUTE_MODEL.getD "eav.Attribute"

/-- eav.conf.get_value_model_string. -/
def get_value_model_string (settings : DjangoSettings) : String :=
  settings.EAV_VALUE_MODEL.getD "eav.Value"

/-- eav.conf.get_enum_group_model_string. -/
def get_enum_group_model_string (settings : DjangoSettings) : String :=
  settings.EAV_ENUM_GROUP_MODEL.getD "eav.EnumGroup"

/-- eav.conf.get_enum_value_model_string. -/
def get_enum_value_model_string (settings : DjangoSettings) : String :=
  settings.EAV_ENUM_VALUE_MODEL.getD "eav.EnumValue"

end Conf

/-- A Python module-level value: eav/settings.py binds only an int. -/
inductive PyValue where
  | int (n : Nat)
  | str (s : String)
deriving DecidableEq

/-- The module-level bindings of eav/settings.py: the only name it defines
is CHARFIELD_LENGTH = 100.  In particular it defines none of
EAV_ATTRIBUTE_MODEL, EAV_VALUE_MODEL, EAV_ENUM_GROUP_MODEL,
EAV_ENUM_VALUE_MODEL. -/
def eavSettingsModule : List (String × PyValue) :=
  [("CHARFIELD_LENGTH", .int 100)]

/-- Python from-import of one name from a module: succeeds with the bound
value when the module defines the name, else raises ImportError. -/
def fromImport (module : List (String × PyValue)) (name : String) :
    Except PyExn PyValue :=
  match module.lookup name with
  | some v => .ok v
  | none => .error (.importError name)

/-- The names that the from-import at the top of eav/models/utils.py
requests from eav.settings, in source order. -/
def utilsImportedNames : List String :=
  ["EAV_ATTRIBUTE_MODEL", "EAV_ENUM_GROUP_MODEL",
   "EAV_ENUM_VALUE_MODEL", "EAV_VALUE_MODEL"]

/-- Loading the module eav/models/utils.py: its from-import binds every
requested name from eav.settings, failing with ImportError on the first
name eav.settings does not define. -/
def utilsModuleImport : Except PyExn (List PyValue) :=
  utilsImportedNames.mapM (fromImport eavSettingsModule)

/-- The string a Python value stands for where a model label is expected. -/
def pyStr : PyValue → String
  | .int n => toString n
  | .str s => s

namespace ModelsUtils

/-- eav.models.utils.get_attribute_model: callable only once its module has
loaded, which requires the from-import from eav.settings to succeed; the
body then resolves getattr(settings, EAV_ATTRIBUTE_MODEL,
DEFAULT_ATTRIBUTE_MODEL) through apps.get_model, with the messages of that
source file. -/
def get_attribute_model (registry : AppRegistry) (settings : DjangoSettings) :
    Except PyExn ModelRef := do
  let _ ← utilsModuleImport
  let dflt ← fromImport eavSettingsModule "EAV_ATTRIBUTE_MODEL"
  let model_name := settings.EAV_ATTRIBUTE_MODEL.getD (pyStr dflt)
  match appsGetModel registry model_name with
  | .ok m => .ok m
  | .error .valueError =>
      .error (.improperlyConfigured
        "EAV_ATTRIBUTE_MODEL must be of the form app_label.model_name")
  | .error .lookupError =>
      .error (.improperlyConfigured
        ("EAV_ATTRIBUTE_MODEL refers to model " ++ model_name
          ++ " that has not been installed"))
  | .error e => .error e

/-- eav.models.utils.get_value_model. -/
def get_value_model (registry : AppRegistry) (settings : DjangoSettings) :
    Except PyExn ModelRef := do
  let _ ← utilsModuleImport
  let dflt ← fromImport eavSettingsModule "EAV_VALUE_MODEL"
  let model_name := settings.EAV_VALUE_MODEL.getD (pyStr dflt)
  match appsGetModel registry model_name with
  | .ok m => .ok m
  | .error .valueError =>
      .error (.improperlyConfigured
        "EAV_VALUE_MODEL must be of the form app_label.model_name")
  | .error .lookupError =>
      .error (.improperlyConfigured
        ("EAV_VALUE_MODEL refers to model " ++ model_name
          ++ " that has not been installed"))
  | .error e => .error e

/-- eav.models.utils.get_enum_group_model. -/
def get_enum_group_model (registry : AppRegistry) (settings : DjangoSettings) :
    Except PyExn ModelRef := do
  let _ ← utilsModuleImport
  let dflt ← fromImport eavSettingsModule "EAV_ENUM_GROUP_MODEL"
  let model_name := settings.EAV_ENUM_GROUP_MODEL.getD (pyStr dflt)
  match appsGetModel registry model_name with
  | .ok m => .ok m
  | .error .valueError =>
      .error (.improperlyConfigured
        "EAV_ENUM_GROUP_MODEL must be of the form app_label.model_name")
  | .error .lookupError =>
      .error (.improperlyConfigured
        ("EAV_ENUM_GROUP_MODEL refers to model " ++ model_name
          ++ " that has not been installed"))
  | .error e => .error e

/-- eav.models.utils.get_enum_value_model. -/
def get_enum_value_model (registry : AppRegistry) (settings : DjangoSettings) :
    Except PyExn ModelRef := do
  let _ ← utilsModuleImport
  let dflt ← fromImport eavSettingsModule "EAV_ENUM_VALUE_MODEL"
  let model_name := settings.EAV_ENUM_VALUE_MODEL.getD (pyStr dflt)
  match appsGetModel registry model_name with
  | .ok m => .ok m
  | .error .valueError =>
      .error (.improperlyConfigured
        "EAV_ENUM_VALUE_MODEL must be of the form app_label.model_name")
  | .error .lookupError =>
      .error (.improperlyConfigured
        ("EAV_ENUM_VALUE_MODEL refers to model " ++ model_name
          ++ " that has not been installed"))
  | .error e => .error e

end ModelsUtils

namespace Swappable

/-- Meta.swappable of eav.models.attribute.Attribute:
getattr(settings, EAV_ATTRIBUTE_MODEL, the label eav.Attribute). -/
def attributeSwappable (settings : DjangoSettings) : String :=
  settings.EAV_ATTRIBUTE_MODEL.getD "eav.Attribute"

/-- Meta.swappable of eav.models.value.Value. -/
def valueSwappable (settings : DjangoSettings) : String :=
  settings.EAV_VALUE_MODEL.getD "eav.Value"

/-- Meta.swappable of eav.models.enum_group.EnumGroup. -/
def enumGroupSwappable (settings : DjangoSettings) : String :=
  settings.EAV_ENUM_GROUP_MODEL.getD "eav.EnumGroup"

/-- Meta.swappable of eav.models.enum_value.EnumValue: the literal
settings-key name, independent of the settings. -/
def enumValueSwappable (_settings : DjangoSettings) : String :=
  "EAV_ENUM_VALUE_MODEL"

end Swappable

/-- An EnumValue row (eav/models/enum_value.py): a primary key and the
single data field, value, a CharField declared unique=True. -/
structure EnumValueRow where
  id : Nat
  value : String
deriving DecidableEq

namespace EnumValueRow

/-- AbstractEnumValue.natural_key: the single-element tuple holding the
value field. -/
def natural_key (v : EnumValueRow) : List String := [v.value]

/-- The string conversion of AbstractEnumValue: str(self.value), and value
is already a string. -/
def str (v : EnumValueRow) : String := v.value

end EnumValueRow

/-- A constraint violation reported by the relational store. -/
inductive DbError where
  | uniqueViolation
deriving DecidableEq

/-- INSERT of a new EnumValue row: the relational store enforces the
primary-key constraint on id and the unique=True constraint declared on the
value column (eav/models/enum_value.py). -/
def enumValueInsert (db : List EnumValueRow) (r : EnumValueRow) :
    Except DbError (List EnumValueRow) :=
  if db.any (fun q => q.id == r.id || q.value == r.value) then
    .error .uniqueViolation
  else
    .ok (r :: db)

/-- UPDATE of the value field of the row with the given id: the store
enforces the unique=True constraint on the value column against every
other row. -/
def enumValueUpdate (db : List EnumValueRow) (rowId : Nat) (newValue : String) :
    Except DbError (List EnumValueRow) :=
  if db.any (fun q => q.id != rowId && q.value == newValue) then
    .error .uniqueViolation
  else
    .ok (db.map (fun q => if q.id == rowId then ⟨q.id, newValue⟩ else q))

/-- A primary key not used by any row of the table. -/
def freshId (db : List EnumValueRow) : Nat :=
  (db.map (fun r => r.id)).foldr max 0 + 1

namespace EnumValueManager

/-- Modelled from the spec: EnumValueManager.get_or_create (the manager in
eav/logic/managers.py is not among the sources).  Returns the existing row
whose value matches the label case-sensitively when there is one, else
inserts a row with a fresh id for the label; creation routes through the
store-level insert, so the unique constraint applies. -/
def get_or_create (db : List EnumValueRow) (label : String) :
    Except DbError (EnumValueRow × List EnumValueRow) :=
  match db.find? (fun r => r.value == label) with
  | some r => .ok (r, db)
  | none =>
      let r : EnumValueRow := ⟨freshId db, label⟩
      (enumValueInsert db r).map (fun db2 => (r, db2))

end EnumValueManager

/-- The EnumValue table states reachable from the empty table through the
operations that create, update or delete EnumValue rows. -/
inductive EnumValueReachable : List EnumValueRow → Prop where
  | empty : EnumValueReachable []
  | insert {db db2 : List EnumValueRow} {r : EnumValueRow} :
      EnumValueReachable db → enumValueInsert db r = .ok db2 →
      EnumValueReachable db2
  | update {db db2 : List EnumValueRow} {rowId : Nat} {v : String} :
      EnumValueReachable db → enumValueUpdate db rowId v = .ok db2 →
      EnumValueReachable db2
  | getOrCreate {db db2 : List EnumValueRow} {r : EnumValueRow} {label : String} :
      EnumValueReachable db →
      EnumValueManager.get_or_create db label = .ok (r, db2) →
      EnumValueReachable db2
  | delete {db : List EnumValueRow} (rowId : Nat) :
      EnumValueReachable db →
      EnumValueReachable (db.filter (fun q => q.id != rowId))

/-- Well-formedness of the EnumValue table: pairwise distinct primary keys
and pairwise distinct value labels. -/
def enumTableOk (db : List EnumValueRow) : Prop :=
  db.Pairwise (fun a b => a.id ≠ b.id ∧ a.value ≠ b.value)

/-- The six Attribute datatypes (spec section 3). -/
inductive EAVDatatype where
  | text
  | float
  | date
  | boolean
  | object
  | enum
deriving DecidableEq

/-- Modelled from the spec: the Attribute schema entity (the field
declarations live in eav/models/abstract.py, which is not among the
sources): machine key, declared datatype, required/unique flags, and for
enum-typed attributes the value set of its enum group. -/
structure EAVAttribute where
  id : Nat
  slug : String
  datatype : EAVDatatype
  required : Bool
  unique : Bool
  enum_group : Option (List EnumValueRow)
deriving DecidableEq

/-- The polymorphic reference to the owning host instance: content type
and object id. -/
structure EntityRef where
  entity_ct : Nat
  entity_id : Nat
deriving DecidableEq

/-- Modelled from the spec: the polymorphic Value row (spec section 3; the
column declarations live in eav/models/abstract.py, which is not among the
sources): one datatype-specific column set, of which exactly one column is
populated, selected by the owning attribute datatype. -/
structure ValueRow where
  attribute_id : Nat
  entity : EntityRef
  value_text : Option String
  value_float : Option Rat
  value_date : Option Int
  value_bool : Option Bool
  value_object_id : Option Nat
  value_enum : Option EnumValueRow
deriving DecidableEq

/-- A native value offered to or produced by the Value store. -/
inductive NativeValue where
  | text (s : String)
  | float (q : Rat)
  | date (d : Int)
  | boolean (b : Bool)
  | object (oid : Nat)
  | enum (ev : EnumValueRow)
deriving DecidableEq

/-- The valid input domain of an attribute: the native value carries the
attribute datatype, and for an enum attribute its EnumValue is a current
member of the attribute enum group. -/
def validInput (a : EAVAttribute) (v : NativeValue) : Bool :=
  match a.datatype, v with
  | .text, .text _ => true
  | .float, .float _ => true
  | .date, .date _ => true
  | .boolean, .boolean _ => true
  | .object, .object _ => true
  | .enum, .enum ev =>
      match a.enum_group with
      | some vals => vals.contains ev
      | none => false
  | _, _ => false

/-- The Value row written for a native payload: the column selected by the
payload is populated and every non-selected column is cleared. -/
def storeNative (a : EAVAttribute) (e : EntityRef) : NativeValue → ValueRow
  | .text s => ⟨a.id, e, some s, none, none, none, none, none⟩
  | .float q => ⟨a.id, e, none, some q, none, none, none, none⟩
  | .date d => ⟨a.id, e, none, none, some d, none, none, none⟩
  | .boolean b => ⟨a.id, e, none, none, none, some b, none, none⟩
  | .object oid => ⟨a.id, e, none, none, none, none, some oid, none⟩
  | .enum ev => ⟨a.id, e, none, none, none, none, none, some ev⟩

/-- Whether a stored row holds a payload equal to a native value, used by
the uniqueness check of Value.set. -/
def payloadEquals (r : ValueRow) (v : NativeValue) : Bool :=
  match v with
  | .text s => r.value_text == some s
  | .float q => r.value_float == some q
  | .date d => r.value_date == some d
  | .boolean b => r.value_bool == some b
  | .object oid => r.value_object_id == some oid
  | .enum ev => r.value_enum == some ev

/-- The errors Value.set can fail with (spec section 4.3). -/
inductive SetError where
  | typeMismatch
  | invalidChoice
  | uniquenessViolation
deriving DecidableEq

/-- Whether a row is the row of the (entity, attribute) pair. -/
def rowForPair (a : EAVAttribute) (e : EntityRef) (r : ValueRow) : Bool :=
  r.attribute_id == a.id && r.entity == e

/-- Modelled from the spec: Value.set steps 1 to 5 (spec section 4.3; the
write path lives in eav/models/abstract.py and eav/models/entity.py, which
are not among the sources).  Selects the storage column by the attribute
datatype and coerces exactly, failing with TypeMismatchError on a datatype
mismatch; for an enum attribute checks current membership of the enum
group, failing with InvalidChoiceError; for a unique attribute fails with
UniquenessError when another entity already holds an equal payload for the
same attribute; then upserts the row keyed by (entity, attribute), clearing
all non-selected columns. -/
def valueSet (db : List ValueRow) (a : EAVAttribute) (e : EntityRef)
    (v : NativeValue) : Except SetError (List ValueRow) :=
  if validInput a v then
    if a.unique && db.any (fun r =>
        r.attribute_id == a.id && r.entity != e && payloadEquals r v) then
      .error .uniquenessViolation
    else
      .ok (storeNative a e v :: db.filter (fun r => !(rowForPair a e r)))
  else
    match a.datatype, v with
    | .enum, .enum _ => .error .invalidChoice
    | _, _ => .error .typeMismatch

/-- Modelled from the spec: Value.get (spec section 4.3; the read path
lives in eav/models/entity.py, which is not among the sources).  Reads the
row of the (entity, attribute) pair if present, extracts the column
selected by the attribute datatype as a typed native value, and returns
the absent result, never an error, when no row exists. -/
def valueGet (db : List ValueRow) (a : EAVAttribute) (e : EntityRef) :
    Option NativeValue :=
  match db.find? (rowForPair a e) with
  | none => none
  | some r =>
      match a.datatype with
      | .text => r.value_text.map NativeValue.text
      | .float => r.value_float.map NativeValue.float
      | .date => r.value_date.map NativeValue.date
      | .boolean => r.value_bool.map NativeValue.boolean
      | .object => r.value_object_id.map NativeValue.object
      | .enum => r.value_enum.map NativeValue.enum

/-- Modelled from the spec: Entity.validate (spec section 4.4; the façade
lives in eav/models/entity.py, which is not among the sources).  Iterates
the applicable attributes in order; a required attribute whose value is
absent, and an attribute whose stored value fails the datatype or choice
check, each contribute one violation naming the attribute; when any
violations exist the whole validation fails with the aggregated list of
all of them. -/
def entityViolations (db : List ValueRow) (e : EntityRef)
    (attrs : List EAVAttribute) : List String :=
  attrs.filterMap (fun a =>
    match valueGet db a e with
    | none => if a.required then some a.slug else none
    | some v => if validInput a v then none else some a.slug)

/-- Modelled from the spec: the pass/fail step of Entity.validate: succeed
when no violations were collected, else fail with all of them. -/
def entityValidate (db : List ValueRow) (e : EntityRef)
    (attrs : List EAVAttribute) : Except (List String) Unit :=
  if (entityViolations db e attrs).isEmpty then .ok ()
  else .error (entityViolations db e attrs)

theorem resolveModelString_spec (registry : AppRegistry)
    (settingName s : String) :
    (∀ m, installedModel registry s = some m →
        Conf.resolveModelString registry settingName s = .ok m) ∧
    (installedModel registry s = none →
        ∃ msg, Conf.resolveModelString registry settingName s =
          .error (.improperlyConfigured msg)) := by
  unfold Conf.resolveModelString appsGetModel installedModel
  rcases hsp : splitOnDot s with _ | ⟨a, _ | ⟨n, _ | ⟨c, t⟩⟩⟩ <;> simp only
  · exact ⟨fun m hm => by simp at hm, fun _ => ⟨_, rfl⟩⟩
  · exact ⟨fun m hm => by simp at hm, fun _ => ⟨_, rfl⟩⟩
  · cases hf : registry.find? (fun m =>
        m.app_label == a && m.model_name == lowerName n) with
    | none => exact ⟨fun m hm => by simp at hm, fun _ => ⟨_, rfl⟩⟩
    | some m => exact ⟨fun m2 hm => by injection hm with h; rw [h], fun h => by simp at h⟩
  · exact ⟨fun m hm => by simp at hm, fun _ => ⟨_, rfl⟩⟩

/-- Claim C1: each eav.conf role resolver returns the configured model
class when apps.get_model can locate it, and raises ImproperlyConfigured
exactly when the configured model string does not have the
app_label.model_name form or the named model is not installed; every error
it produces is ImproperlyConfigured, so no other exception escapes. -/
theorem conf_resolvers_locate_or_raise_improperly_configured
    (registry : AppRegistry) (settings : DjangoSettings) :
    ((∀ m, installedModel registry (Conf.get_attribute_model_string settings) = some m →
        Conf.get_attribute_model registry settings = .ok m) ∧
      (installedModel registry (Conf.get_attribute_model_string settings) = none →
        ∃ msg, Conf.get_attribute_model registry settings =
          .error (.improperlyConfigured msg))) ∧
    ((∀ m, installedModel registry (Conf.get_value_model_string settings) = some m →
        Conf.get_value_model registry settings = .ok m) ∧
      (installedModel registry (Conf.get_value_model_string settings) = none →
        ∃ msg, Conf.get_value_model registry settings =
          .error (.improperlyConfigured msg))) ∧
    ((∀ m, installedModel registry (Conf.get_enum_group_model_string settings) = some m →
        Conf.get_enum_group_model registry settings = .ok m) ∧
      (installedModel registry (Conf.get_enum_group_model_string settings) = none →
        ∃ msg, Conf.get_enum_group_model registry settings =
          .error (.improperlyConfigured msg))) ∧
    ((∀ m, installedModel registry (Conf.get_enum_value_model_string settings) = some m →
        Conf.get_enum_value_model registry settings = .ok m) ∧
      (installedModel registry (Conf.get_enum_value_model_string settings) = none →
        ∃ msg, Conf.get_enum_value_model registry settings =
          .error (.improperlyConfigured msg))) :=
  ⟨resolveModelString_spec registry _ _, resolveModelString_spec registry _ _,
   resolveModelString_spec registry _ _, resolveModelString_spec registry _ _⟩

/-- Witness for C1: under the default registry, the attribute resolver
returns the concrete eav Attribute model for the default configuration and
raises ImproperlyConfigured for a malformed configured string. -/
theorem conf_resolvers_locate_witness :
    Conf.get_attribute_model defaultRegistry noSettings = .ok ⟨"eav", "attribute"⟩ ∧
    ∃ msg, Conf.get_attribute_model defaultRegistry ⟨some "malformed", none, none, none⟩ =
      .error (.improperlyConfigured msg) :=
  ⟨(conf_resolvers_locate_or_raise_improperly_configured defaultRegistry noSettings).1.1
      ⟨"eav", "attribute"⟩ (by rfl),
   (conf_resolvers_locate_or_raise_improperly_configured defaultRegistry
      ⟨some "malformed", none, none, none⟩).1.2 (by rfl)⟩

/-- Claim C2 (refuted): under the default configuration the
eav.models.utils resolvers are not callable at all - loading their module
raises ImportError because eav/settings.py defines none of the four names
its from-import requests - while every eav.conf resolver returns a model
class, so the two resolver families are not interchangeable. -/
theorem utils_resolvers_unimportable_diverge_from_conf :
    ModelsUtils.get_attribute_model defaultRegistry noSettings =
      .error (.importError "EAV_ATTRIBUTE_MODEL") ∧
    ModelsUtils.get_value_model defaultRegistry noSettings =
      .error (.importError "EAV_ATTRIBUTE_MODEL") ∧
    ModelsUtils.get_enum_group_model defaultRegistry noSettings =
      .error (.importError "EAV_ATTRIBUTE_MODEL") ∧
    ModelsUtils.get_enum_value_model defaultRegistry noSettings =
      .error (.importError "EAV_ATTRIBUTE_MODEL") ∧
    Conf.get_attribute_model defaultRegistry noSettings = .ok ⟨"eav", "attribute"⟩ ∧
    Conf.get_value_model defaultRegistry noSettings = .ok ⟨"eav", "value"⟩ ∧
    Conf.get_enum_group_model defaultRegistry noSettings = .ok ⟨"eav", "enumgroup"⟩ ∧
    Conf.get_enum_value_model defaultRegistry noSettings = .ok ⟨"eav", "enumvalue"⟩ := by
  refine ⟨?_, ?_, ?_, ?_, ?_, ?_, ?_, ?_⟩ <;> rfl

/-- Claim C3: with no EAV model setting defined each role resolver resolves
the default label of its role, which under the default registry yields the
four concrete eav models; and for every configuration the model-string
getters return the configured setting when present, else the default
label. -/
theorem default_model_strings_and_resolution :
    (∀ registry : AppRegistry,
      Conf.get_attribute_model registry noSettings =
        Conf.resolveModelString registry "EAV_ATTRIBUTE_MODEL" "eav.Attribute" ∧
      Conf.get_value_model registry noSettings =
        Conf.resolveModelString registry "EAV_VALUE_MODEL" "eav.Value" ∧
      Conf.get_enum_group_model registry noSettings =
        Conf.resolveModelString registry "EAV_ENUM_GROUP_MODEL" "eav.EnumGroup" ∧
      Conf.get_enum_value_model registry noSettings =
        Conf.resolveModelString registry "EAV_ENUM_VALUE_MODEL" "eav.EnumValue") ∧
    (Conf.get_attribute_model defaultRegistry noSettings = .ok ⟨"eav", "attribute"⟩ ∧
      Conf.get_value_model defaultRegistry noSettings = .ok ⟨"eav", "value"⟩ ∧
      Conf.get_enum_group_model defaultRegistry noSettings = .ok ⟨"eav", "enumgroup"⟩ ∧
      Conf.get_enum_value_model defaultRegistry noSettings = .ok ⟨"eav", "enumvalue"⟩) ∧
    (∀ (settings : DjangoSettings) (s : String),
      (settings.EAV_ATTRIBUTE_MODEL = some s →
        Conf.get_attribute_model_string settings = s) ∧
      (settings.EAV_VALUE_MODEL = some s →
        Conf.get_value_model_string settings = s) ∧
      (settings.EAV_ENUM_GROUP_MODEL = some s →
        Conf.get_enum_group_model_string settings = s) ∧
      (settings.EAV_ENUM_VALUE_MODEL = some s →
        Conf.get_enum_value_model_string settings = s)) ∧
    (∀ settings : DjangoSettings,
      (settings.EAV_ATTRIBUTE_MODEL = none →
        Conf.get_attribute_model_string settings = "eav.Attribute") ∧
      (settings.EAV_VALUE_MODEL = none →
        Conf.get_value_model_string settings = "eav.Value") ∧
      (settings.EAV_ENUM_GROUP_MODEL = none →
        Conf.get_enum_group_model_string settings = "eav.EnumGroup") ∧
      (settings.EAV_ENUM_VALUE_MODEL = none →
        Conf.get_enum_value_model_string settings = "eav.EnumValue")) := by
  refine ⟨fun registry => ⟨rfl, rfl, rfl, rfl⟩, ⟨by rfl, by rfl, by rfl, by rfl⟩, ?_, ?_⟩
  · intro settings s
    refine ⟨fun h => ?_, fun h => ?_, fun h => ?_, fun h => ?_⟩ <;>
      simp [Conf.get_attribute_model_string, Conf.get_value_model_string,
        Conf.get_enum_group_model_string, Conf.get_enum_value_model_string, h]
  · intro settings
    refine ⟨fun h => ?_, fun h => ?_, fun h => ?_, fun h => ?_⟩ <;>
      simp [Conf.get_attribute_model_string, Conf.get_value_model_string,
        Conf.get_enum_group_model_string, Conf.get_enum_value_model_string, h]

/-- Witness for C3: the string getter returns the configured value when the
setting is present and the default label when it is absent. -/
theorem default_model_strings_witness :
    Conf.get_attribute_model_string ⟨some "myapp.MyAttribute", none, none, none⟩ =
      "myapp.MyAttribute" ∧
    Conf.get_enum_value_model_string noSettings = "eav.EnumValue" :=
  ⟨(default_model_strings_and_resolution.2.2.1
      ⟨some "myapp.MyAttribute", none, none, none⟩ "myapp.MyAttribute").1 rfl,
   (default_model_strings_and_resolution.2.2.2 noSettings).2.2.2 rfl⟩

theorem mem_le_foldr_max (l : List Nat) (x : Nat) (hx : x ∈ l) :
    x ≤ l.foldr max 0 := by
  induction l with
  | nil => cases hx
  | cons a t ih =>
    rcases List.mem_cons.mp hx with rfl | hx
    · exact le_max_left _ _
    · exact le_trans (ih hx) (le_max_right _ _)

theorem enumValueInsert_ok_table {db db2 : List EnumValueRow}
    {r : EnumValueRow} (hok : enumValueInsert db r = .ok db2)
    (h : enumTableOk db) : enumTableOk db2 := by
  unfold enumValueInsert at hok
  by_cases hc : db.any (fun q => q.id == r.id || q.value == r.value) = true
  · rw [if_pos hc] at hok; cases hok
  · rw [if_neg hc] at hok
    injection hok with h2
    subst h2
    have hnc : ∀ q ∈ db, q.id ≠ r.id ∧ q.value ≠ r.value := by
      intro q hq
      have := List.any_eq_false.mp (Bool.not_eq_true _ ▸ hc) q hq
      simpa using this
    refine List.Pairwise.cons (fun q hq => ?_) h
    exact ⟨fun he => ((hnc q hq).1 he.symm), fun he => ((hnc q hq).2 he.symm)⟩

theorem enumValueUpdate_ok_table {db db2 : List EnumValueRow}
    {rowId : Nat} {v : String} (hok : enumValueUpdate db rowId v = .ok db2)
    (h : enumTableOk db) : enumTableOk db2 := by
  unfold enumValueUpdate at hok
  by_cases hc : db.any (fun q => q.id != rowId && q.value == v) = true
  · rw [if_pos hc] at hok; cases hok
  · rw [if_neg hc] at hok
    injection hok with h2
    subst h2
    have hnc : ∀ q ∈ db, q.id ≠ rowId → q.value ≠ v := by
      intro q hq hid
      have := List.any_eq_false.mp (Bool.not_eq_true _ ▸ hc) q hq
      simpa [hid] using this
    unfold enumTableOk
    rw [List.pairwise_map]
    refine List.Pairwise.imp_of_mem (fun {a b} ha hb hab => ?_) h
    show (if a.id == rowId then (⟨a.id, v⟩ : EnumValueRow) else a).id ≠
        (if b.id == rowId then (⟨b.id, v⟩ : EnumValueRow) else b).id ∧
      (if a.id == rowId then (⟨a.id, v⟩ : EnumValueRow) else a).value ≠
        (if b.id == rowId then (⟨b.id, v⟩ : EnumValueRow) else b).value
    by_cases ha1 : a.id = rowId <;> by_cases hb1 : b.id = rowId
    · exact absurd (ha1.trans hb1.symm) hab.1
    · rw [if_pos (by simp [ha1]), if_neg (by simp [hb1])]
      exact ⟨hab.1, fun he => hnc b hb hb1 he.symm⟩
    · rw [if_neg (by simp [ha1]), if_pos (by simp [hb1])]
      exact ⟨hab.1, hnc a ha ha1⟩
    · rw [if_neg (by simp [ha1]), if_neg (by simp [hb1])]
      exact hab

theorem reachable_enumTableOk (db : List EnumValueRow)
    (h : EnumValueReachable db) : enumTableOk db := by
  induction h with
  | empty => exact List.Pairwise.nil
  | insert _ hok ih => exact enumValueInsert_ok_table hok ih
  | update _ hok ih => exact enumValueUpdate_ok_table hok ih
  | getOrCreate _ hok ih =>
    rename_i dbp db2 r label _
    unfold EnumValueManager.get_or_create at hok
    cases hf : dbp.find? (fun q => q.value == label) with
    | some q =>
      rw [hf] at hok
      injection hok with h2
      cases h2
      exact ih
    | none =>
      rw [hf] at hok
      dsimp only at hok
      cases hins : enumValueInsert dbp ⟨freshId dbp, label⟩ with
      | error e => rw [hins] at hok; cases hok
      | ok db3 =>
        rw [hins] at hok
        simp only [Except.map] at hok
        injection hok with h2
        have hd : db2 = db3 := (congrArg Prod.snd h2).symm
        subst hd
        exact enumValueInsert_ok_table hins ih
  | delete rowId _ ih => exact List.Pairwise.sublist (List.filter_sublist _) ih

/-- Claim C4: in every reachable EnumValue table state no two rows hold an
equal case-sensitive value label - two rows with equal labels are the same
row - and this is preserved by the insert, update, get_or_create and
delete operations that build reachable states, the store enforcing the
declared unique=True constraint. -/
theorem enum_value_label_unique_invariant (db : List EnumValueRow)
    (h : EnumValueReachable db) :
    ∀ r1 ∈ db, ∀ r2 ∈ db, r1.value = r2.value → r1 = r2 := by
  have hok := reachable_enumTableOk db h
  intro r1 h1 r2 h2 hv
  by_contra hne
  exact (List.Pairwise.forall (fun a b hab => ⟨hab.1.symm, hab.2.symm⟩) hok
    h1 h2 hne).2 hv

/-- Witness for C4: a table reached by two inserts satisfies the label
uniqueness invariant at its rows. -/
theorem enum_value_label_unique_invariant_witness :
    (⟨1, "Yes"⟩ : EnumValueRow) = ⟨1, "Yes"⟩ := by
  have h1 : EnumValueReachable [⟨1, "Yes"⟩] :=
    @EnumValueReachable.insert [] [⟨1, "Yes"⟩] ⟨1, "Yes"⟩ .empty (by rfl)
  have h2 : EnumValueReachable [⟨2, "No"⟩, ⟨1, "Yes"⟩] :=
    @EnumValueReachable.insert [⟨1, "Yes"⟩] [⟨2, "No"⟩, ⟨1, "Yes"⟩] ⟨2, "No"⟩
      h1 (by rfl)
  exact enum_value_label_unique_invariant _ h2 ⟨1, "Yes"⟩ (by simp)
    ⟨1, "Yes"⟩ (by simp) rfl

/-- Claim C5: EnumValue.get_or_create is idempotent in the label: for every
table and label the first call succeeds with some row and table, and a
second call with the same label returns the very same row and leaves the
table unchanged, creating no new row. -/
theorem get_or_create_idempotent (db : List EnumValueRow) (label : String) :
    ∃ r db1, EnumValueManager.get_or_create db label = .ok (r, db1) ∧
      EnumValueManager.get_or_create db1 label = .ok (r, db1) ∧
      r.value = label := by
  unfold EnumValueManager.get_or_create
  cases hf : db.find? (fun r => r.value == label) with
  | some r =>
    refine ⟨r, db, rfl, by rw [hf], ?_⟩
    have := List.find?_some hf
    simpa using this
  | none =>
    have hvals : ∀ q ∈ db, ¬(q.value = label) := by
      intro q hq
      have := List.find?_eq_none.mp hf q hq
      simpa using this
    have hids : ∀ q ∈ db, q.id ≠ freshId db := by
      intro q hq
      have hle : q.id ≤ (db.map (fun r => r.id)).foldr max 0 := by
        simpa using mem_le_foldr_max _ _ (List.mem_map_of_mem (fun r => r.id) hq)
      unfold freshId
      omega
    have hcond : db.any (fun q =>
        q.id == freshId db || q.value == label) = false := by
      rw [List.any_eq_false]
      intro q hq
      simp [hids q hq, hvals q hq]
    refine ⟨⟨freshId db, label⟩, ⟨freshId db, label⟩ :: db, ?_, ?_, rfl⟩
    · unfold enumValueInsert
      dsimp only
      rw [hcond]
      rfl
    · rw [List.find?_cons_of_pos _ (by simp)]

/-- Claim C10: natural_key of an EnumValue is exactly the one-element tuple
holding its value, and its string conversion equals its value; hence in a
table satisfying the declared label-uniqueness constraint, two rows with
equal natural keys are the same row. -/
theorem natural_key_and_str_identify_row :
    (∀ v : EnumValueRow, EnumValueRow.natural_key v = [v.value] ∧
      EnumValueRow.str v = v.value) ∧
    (∀ db : List EnumValueRow, enumTableOk db →
      ∀ r1 ∈ db, ∀ r2 ∈ db,
        EnumValueRow.natural_key r1 = EnumValueRow.natural_key r2 → r1 = r2) := by
  refine ⟨fun v => ⟨rfl, rfl⟩, ?_⟩
  intro db hdb r1 h1 r2 h2 hk
  have hv : r1.value = r2.value := by
    simpa [EnumValueRow.natural_key] using hk
  by_contra hne
  exact (List.Pairwise.forall (fun a b hab => ⟨hab.1.symm, hab.2.symm⟩) hdb
    h1 h2 hne).2 hv

/-- Witness for C10: in a concrete two-row table satisfying the label
constraint, equal natural keys identify the row. -/
theorem natural_key_identify_witness :
    (⟨3, "Maybe"⟩ : EnumValueRow) = ⟨3, "Maybe"⟩ :=
  natural_key_and_str_identify_row.2 [⟨3, "Maybe"⟩, ⟨4, "Never"⟩]
    (by
      refine List.pairwise_cons.mpr ⟨?_, List.pairwise_singleton _ _⟩
      intro b hb
      rw [List.mem_singleton.mp hb]
      exact ⟨by decide, by decide⟩)
    ⟨3, "Maybe"⟩ (by simp) ⟨3, "Maybe"⟩ (by simp) rfl

/-- Claim C6: for every attribute datatype and native value in its valid
input domain, a successful Value.set on an (entity, attribute) pair
followed by Value.get on the same pair returns the value written. -/
theorem value_set_get_roundtrip (db : List ValueRow) (a : EAVAttribute)
    (e : EntityRef) (v : NativeValue) (db2 : List ValueRow)
    (hv : validInput a v = true) (hset : valueSet db a e v = .ok db2) :
    valueGet db2 a e = some v := by
  unfold valueSet at hset
  rw [if_pos hv] at hset
  by_cases hu : (a.unique && db.any (fun r =>
      r.attribute_id == a.id && r.entity != e && payloadEquals r v)) = true
  · rw [if_pos hu] at hset; cases hset
  · rw [if_neg hu] at hset
    injection hset with h2
    subst h2
    unfold valueGet
    have hhead : rowForPair a e (storeNative a e v) = true := by
      cases v <;> simp [rowForPair, storeNative]
    rw [List.find?_cons_of_pos _ hhead]
    cases hdt : a.datatype <;> cases v <;>
      simp_all [validInput, storeNative]

/-- Witness for C6: the round trip at one concrete input of each of the
six datatypes. -/
theorem value_set_get_roundtrip_witness :
    valueGet [storeNative ⟨1, "a", .text, false, false, none⟩ ⟨7, 9⟩
        (.text "fever")] ⟨1, "a", .text, false, false, none⟩ ⟨7, 9⟩ =
      some (.text "fever") ∧
    valueGet [storeNative ⟨2, "b", .float, false, false, none⟩ ⟨7, 9⟩
        (.float (5 / 2))] ⟨2, "b", .float, false, false, none⟩ ⟨7, 9⟩ =
      some (.float (5 / 2)) ∧
    valueGet [storeNative ⟨3, "c", .date, false, false, none⟩ ⟨7, 9⟩
        (.date 20231)] ⟨3, "c", .date, false, false, none⟩ ⟨7, 9⟩ =
      some (.date 20231) ∧
    valueGet [storeNative ⟨4, "d", .boolean, false, false, none⟩ ⟨7, 9⟩
        (.boolean true)] ⟨4, "d", .boolean, false, false, none⟩ ⟨7, 9⟩ =
      some (.boolean true) ∧
    valueGet [storeNative ⟨5, "e", .object, false, false, none⟩ ⟨7, 9⟩
        (.object 42)] ⟨5, "e", .object, false, false, none⟩ ⟨7, 9⟩ =
      some (.object 42) ∧
    valueGet [storeNative ⟨6, "f", .enum, false, false,
        some [⟨1, "Yes"⟩, ⟨2, "No"⟩]⟩ ⟨7, 9⟩ (.enum ⟨1, "Yes"⟩)]
      ⟨6, "f", .enum, false, false, some [⟨1, "Yes"⟩, ⟨2, "No"⟩]⟩ ⟨7, 9⟩ =
      some (.enum ⟨1, "Yes"⟩) :=
  ⟨value_set_get_roundtrip [] _ _ _ _ (by rfl) (by rfl),
   value_set_get_roundtrip [] _ _ _ _ (by rfl) (by rfl),
   value_set_get_roundtrip [] _ _ _ _ (by rfl) (by rfl),
   value_set_get_roundtrip [] _ _ _ _ (by rfl) (by rfl),
   value_set_get_roundtrip [] _ _ _ _ (by rfl) (by rfl),
   value_set_get_roundtrip [] _ _ _ _ (by rfl) (by rfl)⟩

/-- Claim C8: Value.get on an (entity, attribute) pair for which the table
holds no row returns the absent result; in this embedding its result type
has no error outcome at all, so it never raises. -/
theorem value_get_absent (db : List ValueRow) (a : EAVAttribute)
    (e : EntityRef) (h : ∀ r ∈ db, rowForPair a e r = false) :
    valueGet db a e = none := by
  unfold valueGet
  have hnone : db.find? (rowForPair a e) = none :=
    List.find?_eq_none.mpr (fun r hr => by simp [h r hr])
  rw [hnone]

/-- Witness for C8: a table holding only a row of another attribute yields
the absent result. -/
theorem value_get_absent_witness :
    valueGet [⟨5, ⟨1, 1⟩, some "x", none, none, none, none, none⟩]
      ⟨1, "t", EAVDatatype.text, false, false, none⟩ ⟨1, 1⟩ = none :=
  value_get_absent _ _ _ (by decide)

/-- Claim C7: Entity.validate on a host whose applicable attributes include
two required attributes with no stored value fails with one aggregated
error naming both missing attributes, not only the first encountered. -/
theorem validate_aggregates_all_missing (db : List ValueRow) (e : EntityRef)
    (attrs : List EAVAttribute) (a1 a2 : EAVAttribute)
    (h1 : a1 ∈ attrs) (h2 : a2 ∈ attrs) (hne : a1 ≠ a2)
    (hr1 : a1.required = true) (hr2 : a2.required = true)
    (hm1 : valueGet db a1 e = none) (hm2 : valueGet db a2 e = none) :
    ∃ errs, entityValidate db e attrs = .error errs ∧
      a1.slug ∈ errs ∧ a2.slug ∈ errs := by
  have hmem1 : a1.slug ∈ entityViolations db e attrs := by
    unfold entityViolations
    refine List.mem_filterMap.mpr ⟨a1, h1, ?_⟩
    dsimp only
    rw [hm1]
    simp [hr1]
  have hmem2 : a2.slug ∈ entityViolations db e attrs := by
    unfold entityViolations
    refine List.mem_filterMap.mpr ⟨a2, h2, ?_⟩
    dsimp only
    rw [hm2]
    simp [hr2]
  have hne2 : (entityViolations db e attrs).isEmpty = false := by
    cases hvl : entityViolations db e attrs with
    | nil => rw [hvl] at hmem1; cases hmem1
    | cons x xs => rfl
  refine ⟨entityViolations db e attrs, ?_, hmem1, hmem2⟩
  unfold entityValidate
  rw [hne2]
  simp

/-- Witness for C7: a host with two missing required attributes receives a
validation error naming both. -/
theorem validate_aggregates_witness :
    ∃ errs, entityValidate [] ⟨1, 1⟩
      [⟨1, "has_fever", EAVDatatype.text, true, false, none⟩,
       ⟨2, "city", EAVDatatype.text, true, false, none⟩] = .error errs ∧
      "has_fever" ∈ errs ∧ "city" ∈ errs :=
  validate_aggregates_all_missing [] ⟨1, 1⟩
    [⟨1, "has_fever", EAVDatatype.text, true, false, none⟩,
     ⟨2, "city", EAVDatatype.text, true, false, none⟩]
    ⟨1, "has_fever", EAVDatatype.text, true, false, none⟩
    ⟨2, "city", EAVDatatype.text, true, false, none⟩
    (by simp) (by simp) (by decide) rfl rfl (by rfl) (by rfl)

/-- Claim C9 (refuted): only EnumValue declares Meta.swappable as its
settings-key name; under the default configuration Attribute, Value and
EnumGroup declare it as the concrete model label of their role instead. -/
theorem swappable_convention_not_uniform :
    Swappable.enumValueSwappable noSettings = "EAV_ENUM_VALUE_MODEL" ∧
    Swappable.attributeSwappable noSettings = "eav.Attribute" ∧
    Swappable.valueSwappable noSettings = "eav.Value" ∧
    Swappable.enumGroupSwappable noSettings = "eav.EnumGroup" ∧
    Swappable.attributeSwappable noSettings ≠ "EAV_ATTRIBUTE_MODEL" ∧
    Swappable.valueSwappable noSettings ≠ "EAV_VALUE_MODEL" ∧
    Swappable.enumGroupSwappable noSettings ≠ "EAV_ENUM_GROUP_MODEL" := by
  refine ⟨rfl, rfl, rfl, rfl, ?_, ?_, ?_⟩ <;> decide
